import Mathlib

/-!
Verification of the Kubo-Greenwood conductivity module
(`atoMEC/postprocess/conductivity.py`) against its specification.

Modelling conventions.

* Machine floating-point numbers are modelled as exact rationals `ℚ`; the
  claims settled here concern the sign / zero / selection-rule structure of
  the tensors and the shape of control flow, which are insensitive to
  rounding.
* `numpy` arrays are modelled as total functions from (unbounded) natural
  indices to `ℚ`, together with explicitly passed shape data where the
  source reads `np.shape`.  Array-filling loops whose writes hit pairwise
  distinct slots (each slot written with one fixed value) are rendered
  pointwise: the entry at an index is the value the loop stores there, and
  the array default (`np.zeros` / the `1e-6` floor initialisation)
  elsewhere.
* Library numerical routines that are external to this repository
  (`np.exp`, `np.sqrt`, `math.pi`, `scipy.integrate.quad` on the Legendre
  kernels, and `np.gradient` with `edge_order=2`) are abstracted as the
  fields of a `Numerics` parameter record, so every theorem below is
  proved for all interpretations of those routines, in particular for the
  intended real-analytic one.  `np.trapz` and `np.linspace` are simple
  closed formulas and are translated directly.
-/

/-- External numerical library routines used by `conductivity.py`,
abstracted as parameters: `exp`, `pi`, `sqrt` (from numpy / math),
`quadP2 l1 l2 m` / `quadP4 l1 l2 m` standing for
`scipy.integrate.quad(P2_func, -1, 1, args=(l1, l2, m))[0]` (resp.
`P4_func`), and `gradient f x` standing for
`np.gradient(f, x, edge_order=2)` along the radial axis. -/
structure Numerics where
  exp : ℚ → ℚ
  pi : ℚ
  sqrt : ℚ → ℚ
  quadP2 : ℕ → ℕ → ℤ → ℚ
  quadP4 : ℕ → ℕ → ℤ → ℚ
  gradient : (ℕ → ℚ) → (ℕ → ℚ) → (ℕ → ℚ)

/-- The electric-dipole selection rule `abs(l1 - l2) == 1` of the source,
with the Python `int` subtraction carried out in `ℤ`. -/
def selRule (l1 l2 : ℕ) : Prop := ((l1 : ℤ) - (l2 : ℤ)).natAbs = 1

instance (l1 l2 : ℕ) : Decidable (selRule l1 l2) := by
  unfold selRule; infer_instance

/-- `KuboGreenwood.all_orbs`: the body rebuilds the list
`[(l, n) for l in range(lmax) for n in range(nmax)]` afresh on every
property access (the nested `for` loops appending to a new `all_orbs_tmp`
list). -/
def all_orbs (lmax nmax : ℕ) : List (ℕ × ℕ) :=
  (List.range lmax).flatMap (fun l => (List.range nmax).map (fun n => (l, n)))

/-- `KuboGreenwood.cond_orbs`: starts from the freshly built `all_orbs`
list and executes `cond_orbs_tmp.remove(val_orbs)` for each valence
orbital in turn; Python `list.remove` deletes the first occurrence, which
is `List.erase`. -/
def cond_orbs (lmax nmax : ℕ) (valence_orbs : List (ℕ × ℕ)) : List (ℕ × ℕ) :=
  valence_orbs.foldl (fun acc v => acc.erase v) (all_orbs lmax nmax)

/-- `calc_occ_diff_mat`: the `f_pq − f_nl` tensor.  The source fills a
zero-initialised `(nbands, lmax, nmax, lmax, nmax)` array; slot
`(k, l1, n1, l2, n2)` is written (with the one fixed value
`-(occnums[k,0,l1,n1] - occnums[k,0,l2,n2])`) exactly when
`(l1, n1) ∈ orb_subset_1`, `(l2, n2) ∈ orb_subset_2`, `abs(l1-l2) == 1`
and the difference is not negative; rendered pointwise. -/
def calc_occ_diff_mat (occnums : ℕ → ℕ → ℕ → ℕ → ℚ)
    (orb_subset_1 orb_subset_2 : List (ℕ × ℕ)) :
    ℕ → ℕ → ℕ → ℕ → ℕ → ℚ := fun k l1 n1 l2 n2 =>
  let occ_diff : ℚ := -(occnums k 0 l1 n1 - occnums k 0 l2 n2)
  if (l1, n1) ∈ orb_subset_1 ∧ (l2, n2) ∈ orb_subset_2 ∧ selRule l1 l2 ∧
      ¬ occ_diff < 0
  then occ_diff else 0

/-- `calc_eig_diff_mat`: the `ε_nl − ε_pq` tensor.  The source initialises
the array to `0` and then adds `1e-6` everywhere
(`eig_diff_mat += 1e-6`); slot `(k, l1, n1, l2, n2)` is then overwritten
(`=`, not `+=`) with `eigvals[k,0,l1,n1] - eigvals[k,0,l2,n2]` exactly
when `(l1, n1) ∈ orb_subset_1`, `(l2, n2) ∈ orb_subset_2`,
`abs(l1-l2) == 1` and that difference is not negative; rendered
pointwise. -/
def calc_eig_diff_mat (eigvals : ℕ → ℕ → ℕ → ℕ → ℚ)
    (orb_subset_1 orb_subset_2 : List (ℕ × ℕ)) :
    ℕ → ℕ → ℕ → ℕ → ℕ → ℚ := fun k l1 n1 l2 n2 =>
  if (l1, n1) ∈ orb_subset_1 ∧ (l2, n2) ∈ orb_subset_2 ∧ selRule l1 l2 ∧
      ¬ eigvals k 0 l1 n1 - eigvals k 0 l2 n2 < 0
  then eigvals k 0 l1 n1 - eigvals k 0 l2 n2 else (1e-6 : ℚ)

/-- Concrete occupation numbers for the C6 witness: the `l = 1` channel
fully occupied, the rest empty. -/
def occW : ℕ → ℕ → ℕ → ℕ → ℚ := fun _ _ l _ => if l = 1 then 1 else 0

/-- Concrete eigenvalues for the C6 witness: the `l = 1` channel lies
below the rest. -/
def eigW : ℕ → ℕ → ℕ → ℕ → ℚ := fun _ _ l _ => if l = 1 then 0 else 1

/-- `np.trapz(y, x)` on the first `ngrid` samples of the model arrays:
the trapezoidal rule `Σ_i (x[i+1] − x[i]) · (y[i] + y[i+1]) / 2`. -/
def trapzF (y x : ℕ → ℚ) (ngrid : ℕ) : ℚ :=
  ∑ i in Finset.range (ngrid - 1), (x (i + 1) - x i) * (y i + y (i + 1)) / 2

/-- `sph_ham_coeff(l, m)`: the real spherical-harmonic normalisation
coefficient `sqrt((2l+1)(l−m)!/((l+m)!·4π))`; `math.factorial` of the
integer arguments `l ∓ m` is modelled through `Int.toNat` (the source is
only ever called with `|m| ≤ l`, where `toNat` is the identity). -/
def sph_ham_coeff (N : Numerics) (l : ℕ) (m : ℤ) : ℚ :=
  N.sqrt ((2 * l + 1) * (((l : ℤ) - m).toNat.factorial : ℚ) /
    ((((l : ℤ) + m).toNat.factorial : ℚ) * 4 * N.pi))

/-- `P_int(func_int, l1, l2, m)`:
`2π · c(l1,m) · c(l2,m) · quad(kernel, -1, 1)`, the quadrature values
being the abstract `Numerics.quadP2` / `Numerics.quadP4` fields.  (For
`func_int ∉ {2, 4}` the source leaves `integ` unbound and would raise; the
function is only applied to `2` and `4`, modelled with a `0` default.) -/
def P_int (N : Numerics) (func_int : ℕ) (l1 l2 : ℕ) (m : ℤ) : ℚ :=
  let integ : ℚ :=
    if func_int = 2 then N.quadP2 l1 l2 m
    else if func_int = 4 then N.quadP4 l1 l2 m
    else 0
  2 * N.pi * sph_ham_coeff N l1 m * sph_ham_coeff N l2 m * integ

/-- `P_mat_int(func_int, lmax)`: the `(lmax, lmax, 2·lmax+1)` angular
tensor.  The zero-initialised array gets slot `(l1, l2, lsmall + m)`
written exactly when `l1, l2 < lmax`, `abs(l1 - l2) == 1` and
`-lsmall ≤ m ≤ lsmall` with `lsmall = min(l1, l2)` — i.e. at third index
`j ≤ 2·lsmall`, holding `P_int(func_int, l1, l2, j − lsmall)`; each slot
is written at most once, rendered pointwise. -/
def P_mat_int (N : Numerics) (func_int lmax : ℕ) : ℕ → ℕ → ℕ → ℚ :=
  fun l1 l2 j =>
    if l1 < lmax ∧ l2 < lmax ∧ selRule l1 l2 ∧ j ≤ 2 * min l1 l2
    then P_int N func_int l1 l2 ((j : ℤ) - (min l1 l2 : ℤ))
    else 0

/-- `R1_int_term(eigfunc, grad_orb2, xgrid)`:
`4π · trapz(exp(3x) · eigfunc · exp(-x/2) · grad_orb2, x)`. -/
def R1_int_term (N : Numerics) (eigfunc grad_orb2 xgrid : ℕ → ℚ)
    (ngrid : ℕ) : ℚ :=
  let func_int := fun i => eigfunc i * N.exp (-xgrid i / 2) * grad_orb2 i
  4 * N.pi * trapzF (fun i => N.exp (3 * xgrid i) * func_int i) xgrid ngrid

/-- `calc_R1_int_mat`: the gradient-type radial tensor.  `deriv_orb2` is
`np.gradient(eigfuncs, xgrid, axis=-1, edge_order=2)` (the abstract
`Numerics.gradient`), `grad_orb2 = exp(-1.5x) · (deriv_orb2 − 0.5 ·
eigfuncs)`.  The zero-initialised `(nbands, lmax, nmax, lmax, nmax)`
array gets slot `(k, a, b, c, d)` written exactly when
`abs(a - c) == 1` and either `((a,b), (c,d)) ∈ S1 × S2` (the direct
store) or `S1 ≠ S2` with `((c,d), (a,b)) ∈ S1 × S2` (the mirrored
store); both stores place the same value
`R1_int_term(eigfuncs[:,0,a,b], grad_orb2[:,0,c,d])`, rendered
pointwise.  `occnums` is read by the source only for its shape. -/
def calc_R1_int_mat (N : Numerics) (eigfuncs : ℕ → ℕ → ℕ → ℕ → ℕ → ℚ)
    (_occnums : ℕ → ℕ → ℕ → ℕ → ℚ) (xgrid : ℕ → ℚ) (ngrid : ℕ)
    (orb_subset_1 orb_subset_2 : List (ℕ × ℕ)) :
    ℕ → ℕ → ℕ → ℕ → ℕ → ℚ :=
  let deriv_orb2 := fun k s l n => N.gradient (fun i => eigfuncs k s l n i) xgrid
  let grad_orb2 := fun k s l n i =>
    N.exp (-(15/10) * xgrid i) * (deriv_orb2 k s l n i - (5/10) * eigfuncs k s l n i)
  fun k l1 n1 l2 n2 =>
    if selRule l1 l2 ∧
        (((l1, n1) ∈ orb_subset_1 ∧ (l2, n2) ∈ orb_subset_2) ∨
          (orb_subset_1 ≠ orb_subset_2 ∧
            (l2, n2) ∈ orb_subset_1 ∧ (l1, n1) ∈ orb_subset_2))
    then R1_int_term N (fun i => eigfuncs k 0 l1 n1 i)
      (fun i => grad_orb2 k 0 l2 n2 i) xgrid ngrid
    else 0

/-- `R2_int_term(eigfunc_1, eigfunc_2, xgrid)`:
`4π · trapz(exp(x) · eigfunc_1 · eigfunc_2, x)`. -/
def R2_int_term (N : Numerics) (eigfunc_1 eigfunc_2 xgrid : ℕ → ℚ)
    (ngrid : ℕ) : ℚ :=
  4 * N.pi *
    trapzF (fun i => N.exp (xgrid i) * eigfunc_1 i * eigfunc_2 i) xgrid ngrid

/-- `calc_R2_int_mat`: the overlap-type radial tensor; same write pattern
as `calc_R1_int_mat` with `R2_int_term(eigfuncs[:,0,a,b],
eigfuncs[:,0,c,d])` as the stored value, rendered pointwise. -/
def calc_R2_int_mat (N : Numerics) (eigfuncs : ℕ → ℕ → ℕ → ℕ → ℕ → ℚ)
    (_occnums : ℕ → ℕ → ℕ → ℕ → ℚ) (xgrid : ℕ → ℚ) (ngrid : ℕ)
    (orb_subset_1 orb_subset_2 : List (ℕ × ℕ)) :
    ℕ → ℕ → ℕ → ℕ → ℕ → ℚ :=
  fun k l1 n1 l2 n2 =>
    if selRule l1 l2 ∧
        (((l1, n1) ∈ orb_subset_1 ∧ (l2, n2) ∈ orb_subset_2) ∨
          (orb_subset_1 ≠ orb_subset_2 ∧
            (l2, n2) ∈ orb_subset_1 ∧ (l1, n1) ∈ orb_subset_2))
    then R2_int_term N (fun i => eigfuncs k 0 l1 n1 i)
      (fun i => eigfuncs k 0 l2 n2 i) xgrid ngrid
    else 0

/-- A concrete interpretation of the external numerical routines, used
only to instantiate witnesses. -/
def numericsW : Numerics where
  exp := fun x => x + 1
  pi := 3
  sqrt := fun x => x
  quadP2 := fun _ _ _ => 1
  quadP4 := fun _ _ _ => 1
  gradient := fun f _ => f

/-- The orbital data consumed by `KuboGreenwood.__init__` from the
external electronic-structure solver.  Each array is a total function
plus its `np.shape` tuple (ranks are fixed by the Lean types; the shape
tuples carry the sizes the source reads). -/
structure Orbitals where
  xgrid : ℕ → ℚ
  ngrid : ℕ
  eigfuncs : ℕ → ℕ → ℕ → ℕ → ℕ → ℚ
  eigfuncsShape : ℕ × ℕ × ℕ × ℕ × ℕ
  eigvals : ℕ → ℕ → ℕ → ℕ → ℚ
  eigvalsShape : ℕ × ℕ × ℕ × ℕ
  occnums : ℕ → ℕ → ℕ → ℕ → ℚ
  occnumsShape : ℕ × ℕ × ℕ × ℕ
  DOS : ℕ → ℕ → ℕ → ℕ → ℚ
  kpt_int_weight : ℚ

/-- The state built by `KuboGreenwood.__init__`. -/
structure KuboGreenwood where
  xgrid : ℕ → ℚ
  ngrid : ℕ
  eigfuncs : ℕ → ℕ → ℕ → ℕ → ℕ → ℚ
  eigvals : ℕ → ℕ → ℕ → ℕ → ℚ
  eigvalsShape : ℕ × ℕ × ℕ × ℕ
  occnums : ℕ → ℕ → ℕ → ℕ → ℚ
  occnumsShape : ℕ × ℕ × ℕ × ℕ
  DOS_w : ℕ → ℕ → ℕ → ℕ → ℚ
  spindims : ℕ
  lmax : ℕ
  nmax : ℕ
  valence_orbs : List (ℕ × ℕ)

/-- `KuboGreenwood.__init__`: copies the orbital arrays, forms
`DOS_w = DOS * kpt_int_weight`, unpacks `np.shape(eigvals)` and installs
the `nmax`/`lmax` defaults when the arguments are `0`.  It contains no
comparison between the shapes of `eigfuncs`, `eigvals` and `occnums`, and
no other validation: it cannot fail, modelled by an `Except` that is
always `ok`. -/
def kuboGreenwoodInit (orbitals : Orbitals) (valence_orbs : List (ℕ × ℕ))
    (nmax lmax : ℕ) : Except String KuboGreenwood :=
  match orbitals.eigvalsShape with
  | (_nbands, spindims, lmax_default, nmax_default) =>
    Except.ok
      { xgrid := orbitals.xgrid
        ngrid := orbitals.ngrid
        eigfuncs := orbitals.eigfuncs
        eigvals := orbitals.eigvals
        eigvalsShape := orbitals.eigvalsShape
        occnums := orbitals.occnums
        occnumsShape := orbitals.occnumsShape
        DOS_w := fun k s l n => orbitals.DOS k s l n * orbitals.kpt_int_weight
        spindims := spindims
        lmax := if lmax = 0 then lmax_default else lmax
        nmax := if nmax = 0 then nmax_default else nmax
        valence_orbs := valence_orbs }

/-- `KuboGreenwood.sph_vol`: `V = (4/3)·π·rmax³` with
`rmax = np.exp(xgrid)[-1]`. -/
def sph_vol (N : Numerics) (kg : KuboGreenwood) : ℚ :=
  let rmax := N.exp (kg.xgrid (kg.ngrid - 1))
  (4/3) * N.pi * rmax ^ (3 : ℕ)

/-- `KuboGreenwood.calc_sig`: the integrated conductivity.  The four
`einsum` contractions of the radial and angular tensors, the elementwise
`|(T1+T2)·(T3+T4)|` summed over the magnetic axis (of size `2·lmax+1`,
the third axis of `P_mat_int`), the occupation- and
eigenvalue-difference tensors, the `kln,klnpq->` reduction against
`DOS_w[:, 0]`, and the `2π/V` prefactor. -/
def calc_sig (N : Numerics) (kg : KuboGreenwood)
    (R1_int R2_int : ℕ → ℕ → ℕ → ℕ → ℕ → ℚ)
    (orb_subset_1 orb_subset_2 : List (ℕ × ℕ)) : ℚ :=
  match kg.occnumsShape with
  | (nbands, _nspin, lmax, nmax) =>
    let P2_int := P_mat_int N 2 lmax
    let P4_int := P_mat_int N 4 lmax
    let tmp_mat_1 := fun k a b c d e => R1_int k a b c d * P2_int a c e
    let tmp_mat_2 := fun k a b c d e => R2_int k a b c d * P4_int a c e
    let tmp_mat_3 := fun k a b c d e => R1_int k c d a b * P2_int c a e
    let tmp_mat_4 := fun k a b c d e => R2_int k c d a b * P4_int c a e
    let mel_sq_mat := fun k a b c d =>
      ∑ e in Finset.range (2 * lmax + 1),
        |(tmp_mat_1 k a b c d e + tmp_mat_2 k a b c d e) *
          (tmp_mat_3 k a b c d e + tmp_mat_4 k a b c d e)|
    let occ_diff_mat := calc_occ_diff_mat kg.occnums orb_subset_1 orb_subset_2
    let eig_diff_mat := calc_eig_diff_mat kg.eigvals orb_subset_1 orb_subset_2
    let sig_bare :=
      ∑ k in Finset.range nbands, ∑ l in Finset.range lmax,
        ∑ n in Finset.range nmax, ∑ p in Finset.range lmax,
          ∑ q in Finset.range nmax,
            kg.DOS_w k 0 l n *
              (mel_sq_mat k l n p q * occ_diff_mat k l n p q /
                eig_diff_mat k l n p q)
    2 * N.pi * sig_bare / sph_vol N kg

/-- `np.linspace(a, b, n)`: `n` points `a + i·(b−a)/(n−1)`. -/
def linspace (a b : ℚ) (n : ℕ) : List ℚ :=
  (List.range n).map (fun i : ℕ => a + (i : ℚ) * ((b - a) / ((n : ℚ) - 1)))

/-- `np.trapz(y, x)` on list-modelled columns. -/
def trapzL (y x : List ℚ) : ℚ :=
  ∑ i in Finset.range (x.length - 1),
    (x.getD (i + 1) 0 - x.getD i 0) * (y.getD i 0 + y.getD (i + 1) 0) / 2

/-- `lorentzian(x, x0, gamma) = (gamma/π) · (1 / (gamma² + (x−x0)²))`
(the `prefac` in the source is the constant `1.0`). -/
def lorentzian (N : Numerics) (x x0 gamma : ℚ) : ℚ :=
  let prefac : ℚ := 1
  (gamma / N.pi) * (prefac / (gamma ^ (2 : ℕ) + (x - x0) ^ (2 : ℕ)))

/-- `KuboGreenwood.sig_to_N`: `sig · (2V/π)`. -/
def sig_to_N (N : Numerics) (sig V : ℚ) : ℚ :=
  sig * (2 * V / N.pi)

/-- The pair returned by `calc_sig_func`: the two columns of the
`(n_freq, 2)` array `sig_omega` (`[:, 0]` the frequency grid, `[:, 1]`
the conductivity) and the TRK electron count `N_tot`. -/
structure SigOmega where
  omega : List ℚ
  sig : List ℚ
  N_tot : ℚ

/-- `KuboGreenwood.calc_sig_func`: the dynamical conductivity.  Same
tensor assembly as `calc_sig`; the frequency grid is
`np.linspace(1e-5, sqrt(omega_max), n_freq) ** 2`; each column entry is
the `nijkl,nijklm->m` contraction of `DOS_w·mel_sq·occ_diff` against
`lorentzian(ω, eig_diff, gamma)/eig_diff`, scaled by `2π/V`; `N_tot` is
`sig_to_N` of `np.trapz` of the conductivity column over the grid. -/
def calc_sig_func (N : Numerics) (kg : KuboGreenwood)
    (R1_int R2_int : ℕ → ℕ → ℕ → ℕ → ℕ → ℚ)
    (orb_subset_1 orb_subset_2 : List (ℕ × ℕ))
    (omega_max : ℚ) (n_freq : ℕ) (gamma : ℚ) : SigOmega :=
  match kg.occnumsShape with
  | (nbands, _nspin, lmax, nmax) =>
    let P2_int := P_mat_int N 2 lmax
    let P4_int := P_mat_int N 4 lmax
    let tmp_mat_1 := fun k a b c d e => R1_int k a b c d * P2_int a c e
    let tmp_mat_2 := fun k a b c d e => R2_int k a b c d * P4_int a c e
    let tmp_mat_3 := fun k a b c d e => R1_int k c d a b * P2_int c a e
    let tmp_mat_4 := fun k a b c d e => R2_int k c d a b * P4_int c a e
    let occ_diff_mat := calc_occ_diff_mat kg.occnums orb_subset_1 orb_subset_2
    let eig_diff_mat := calc_eig_diff_mat kg.eigvals orb_subset_1 orb_subset_2
    let mel_sq_mat := fun k a b c d =>
      ∑ e in Finset.range (2 * lmax + 1),
        |(tmp_mat_1 k a b c d e + tmp_mat_2 k a b c d e) *
          (tmp_mat_3 k a b c d e + tmp_mat_4 k a b c d e)|
    let omega_0 : ℚ := 1e-5
    let omega_arr : List ℚ :=
      (linspace omega_0 (N.sqrt omega_max) n_freq).map (fun w => w ^ (2 : ℕ))
    let mat1 := fun k i j p q =>
      kg.DOS_w k 0 i j * (mel_sq_mat k i j p q * occ_diff_mat k i j p q)
    let sig_at := fun (w : ℚ) =>
      (∑ k in Finset.range nbands, ∑ i in Finset.range lmax,
        ∑ j in Finset.range nmax, ∑ p in Finset.range lmax,
          ∑ q in Finset.range nmax,
            mat1 k i j p q *
              (lorentzian N w (eig_diff_mat k i j p q) gamma /
                eig_diff_mat k i j p q)) * 2 * N.pi / sph_vol N kg
    let sig_col := omega_arr.map sig_at
    { omega := omega_arr
      sig := sig_col
      N_tot := sig_to_N N (trapzL sig_col omega_arr) (sph_vol N kg) }

/-- `KuboGreenwood.R1_int_tt` (property, recomputed per access). -/
def R1_int_tt (N : Numerics) (kg : KuboGreenwood) : ℕ → ℕ → ℕ → ℕ → ℕ → ℚ :=
  calc_R1_int_mat N kg.eigfuncs kg.occnums kg.xgrid kg.ngrid
    (all_orbs kg.lmax kg.nmax) (all_orbs kg.lmax kg.nmax)

/-- `KuboGreenwood.R1_int_cc` (property, recomputed per access). -/
def R1_int_cc (N : Numerics) (kg : KuboGreenwood) : ℕ → ℕ → ℕ → ℕ → ℕ → ℚ :=
  calc_R1_int_mat N kg.eigfuncs kg.occnums kg.xgrid kg.ngrid
    (cond_orbs kg.lmax kg.nmax kg.valence_orbs)
    (cond_orbs kg.lmax kg.nmax kg.valence_orbs)

/-- `KuboGreenwood.R1_int_cv` (property, recomputed per access). -/
def R1_int_cv (N : Numerics) (kg : KuboGreenwood) : ℕ → ℕ → ℕ → ℕ → ℕ → ℚ :=
  calc_R1_int_mat N kg.eigfuncs kg.occnums kg.xgrid kg.ngrid
    (cond_orbs kg.lmax kg.nmax kg.valence_orbs) kg.valence_orbs

/-- `KuboGreenwood.R1_int_vv` (property, recomputed per access). -/
def R1_int_vv (N : Numerics) (kg : KuboGreenwood) : ℕ → ℕ → ℕ → ℕ → ℕ → ℚ :=
  calc_R1_int_mat N kg.eigfuncs kg.occnums kg.xgrid kg.ngrid
    kg.valence_orbs kg.valence_orbs

/-- `KuboGreenwood.R2_int_tt` (property, recomputed per access). -/
def R2_int_tt (N : Numerics) (kg : KuboGreenwood) : ℕ → ℕ → ℕ → ℕ → ℕ → ℚ :=
  calc_R2_int_mat N kg.eigfuncs kg.occnums kg.xgrid kg.ngrid
    (all_orbs kg.lmax kg.nmax) (all_orbs kg.lmax kg.nmax)

/-- `KuboGreenwood.R2_int_cc` (property, recomputed per access). -/
def R2_int_cc (N : Numerics) (kg : KuboGreenwood) : ℕ → ℕ → ℕ → ℕ → ℕ → ℚ :=
  calc_R2_int_mat N kg.eigfuncs kg.occnums kg.xgrid kg.ngrid
    (cond_orbs kg.lmax kg.nmax kg.valence_orbs)
    (cond_orbs kg.lmax kg.nmax kg.valence_orbs)

/-- `KuboGreenwood.R2_int_cv` (property, recomputed per access). -/
def R2_int_cv (N : Numerics) (kg : KuboGreenwood) : ℕ → ℕ → ℕ → ℕ → ℕ → ℚ :=
  calc_R2_int_mat N kg.eigfuncs kg.occnums kg.xgrid kg.ngrid
    (cond_orbs kg.lmax kg.nmax kg.valence_orbs) kg.valence_orbs

/-- `KuboGreenwood.R2_int_vv` (property, recomputed per access). -/
def R2_int_vv (N : Numerics) (kg : KuboGreenwood) : ℕ → ℕ → ℕ → ℕ → ℕ → ℚ :=
  calc_R2_int_mat N kg.eigfuncs kg.occnums kg.xgrid kg.ngrid
    kg.valence_orbs kg.valence_orbs

/-- `KuboGreenwood.cond_tot`: dispatch on the `component` string; the
four recognised values select the radial tensors and subset pair and run
`calc_sig_func`; anything else hits
`sys.exit("Component of conducivity not recognised")` before any tensor
is built (in the source the `R1_int_*`/`R2_int_*` properties and the
orbital subsets are only evaluated inside the matching branch), modelled
as `Except.error`. -/
def cond_tot (N : Numerics) (kg : KuboGreenwood) (component : String)
    (gamma maxfreq : ℚ) (nfreq : ℕ) : Except String SigOmega :=
  if component = "tt" then
    Except.ok (calc_sig_func N kg (R1_int_tt N kg) (R2_int_tt N kg)
      (all_orbs kg.lmax kg.nmax) (all_orbs kg.lmax kg.nmax)
      maxfreq nfreq gamma)
  else if component = "cc" then
    Except.ok (calc_sig_func N kg (R1_int_cc N kg) (R2_int_cc N kg)
      (cond_orbs kg.lmax kg.nmax kg.valence_orbs)
      (cond_orbs kg.lmax kg.nmax kg.valence_orbs) maxfreq nfreq gamma)
  else if component = "cv" then
    Except.ok (calc_sig_func N kg (R1_int_cv N kg) (R2_int_cv N kg)
      (cond_orbs kg.lmax kg.nmax kg.valence_orbs) kg.valence_orbs
      maxfreq nfreq gamma)
  else if component = "vv" then
    Except.ok (calc_sig_func N kg (R1_int_vv N kg) (R2_int_vv N kg)
      kg.valence_orbs kg.valence_orbs maxfreq nfreq gamma)
  else
    Except.error "Component of conducivity not recognised"

/-- Concrete `KuboGreenwood` state used only to instantiate witnesses. -/
def kgW : KuboGreenwood where
  xgrid := fun i => i
  ngrid := 3
  eigfuncs := fun _ _ _ _ _ => 1
  eigvals := fun _ _ _ _ => 1
  eigvalsShape := (1, 1, 2, 1)
  occnums := fun _ _ _ _ => 1
  occnumsShape := (1, 1, 2, 1)
  DOS_w := fun _ _ _ _ => 1
  spindims := 1
  lmax := 2
  nmax := 1
  valence_orbs := [(0, 0)]

/-- Numerics interpretation for the C8 witness: the square root pinned to
its real value `2` at `omega_max = 4`. -/
def numericsSqrt2 : Numerics := { numericsW with sqrt := fun _ => 2 }

/-- Numerics interpretation for the C8 counterexample: the square root
pinned to its real value `1e-5` at `omega_max = 1e-10`. -/
def numericsTiny : Numerics := { numericsW with sqrt := fun _ => (1e-5 : ℚ) }

/-- Orbitals whose three arrays have pairwise inconsistent shapes, for
the C2 counterexample: `eigvals` is `(1,1,1,1)`, `occnums` is
`(1,1,2,2)`, `eigfuncs` is `(2,1,1,1,3)`. -/
def orbitalsMismatched : Orbitals where
  xgrid := fun i => i
  ngrid := 3
  eigfuncs := fun _ _ _ _ _ => 1
  eigfuncsShape := (2, 1, 1, 1, 3)
  eigvals := fun _ _ _ _ => 1
  eigvalsShape := (1, 1, 1, 1)
  occnums := fun _ _ _ _ => 1
  occnumsShape := (1, 1, 2, 2)
  DOS := fun _ _ _ _ => 1
  kpt_int_weight := 1

/-- `calc_R1_int(orb1, orb2, xgrid)`: the single-pair R1 integral of the
diagnostic path (no `4π` prefactor, unlike `R1_int_term`). -/
def calc_R1_int (N : Numerics) (orb1 orb2 xgrid : ℕ → ℚ) (ngrid : ℕ) : ℚ :=
  let deriv_orb2 := N.gradient orb2 xgrid
  let grad_orb2 := fun i =>
    N.exp (-(15/10) * xgrid i) * (deriv_orb2 i - (5/10) * orb2 i)
  let func_int := fun i => orb1 i * N.exp (-xgrid i / 2) * grad_orb2 i
  trapzF (fun i => N.exp (3 * xgrid i) * func_int i) xgrid ngrid

/-- `calc_R2_int(orb1, orb2, xgrid)`: the single-pair R2 integral of the
diagnostic path (no `4π` prefactor, unlike `R2_int_term`). -/
def calc_R2_int (N : Numerics) (orb1 orb2 xgrid : ℕ → ℚ) (ngrid : ℕ) : ℚ :=
  trapzF (fun i => N.exp (xgrid i) * orb1 i * orb2 i) xgrid ngrid

/-- `calc_mel_kgm`: the direct dipole matrix element
`R1·P_int(2) + R2·P_int(4)` for a single orbital pair. -/
def calc_mel_kgm (N : Numerics) (orb_l1n1 orb_l2n2 : ℕ → ℚ)
    (l1 _n1 l2 _n2 : ℕ) (m : ℤ) (xgrid : ℕ → ℚ) (ngrid : ℕ) : ℚ :=
  calc_R1_int N orb_l1n1 orb_l2n2 xgrid ngrid * P_int N 2 l1 l2 m +
    calc_R2_int N orb_l1n1 orb_l2n2 xgrid ngrid * P_int N 4 l1 l2 m

/-- `KuboGreenwood.check_sum_rule(l, n, m)`, per band `k`: iterates over
`new_orbs` (= `all_orbs` with `(l, n)` removed); for each `(l1, n1)`
passing `abs(l1 - l) == 1` it adds `mel_sq / eig_diff`, where
`eig_diff = eigvals[k,0,l1,n1] − eigvals[k,0,l,n]` is the raw difference
(no floor, no zero test) and `mel_sq = 0` when `abs(m) > l1`, otherwise
`|mel_cc · mel|` from the `sqrt(4π)`-rescaled orbitals. -/
def check_sum_rule (N : Numerics) (kg : KuboGreenwood) (l n : ℕ) (m : ℤ) :
    ℕ → ℚ := fun k =>
  let new_orbs := (all_orbs kg.lmax kg.nmax).erase (l, n)
  new_orbs.foldl (fun acc p =>
    let eig_diff := kg.eigvals k 0 p.1 p.2 - kg.eigvals k 0 l n
    if selRule p.1 l then
      let orb_l1n1 := fun i => N.sqrt (4 * N.pi) * kg.eigfuncs k 0 p.1 p.2 i
      let orb_ln := fun i => N.sqrt (4 * N.pi) * kg.eigfuncs k 0 l n i
      let mel_sq : ℚ :=
        if (p.1 : ℤ) < |m| then 0
        else
          |calc_mel_kgm N orb_l1n1 orb_ln p.1 p.2 l n m kg.xgrid kg.ngrid *
            calc_mel_kgm N orb_ln orb_l1n1 l n p.1 p.2 m kg.xgrid kg.ngrid|
      acc + mel_sq / eig_diff
    else acc) 0

/-- The denominators by which `check_sum_rule` divides in band `k`: one
per element of `new_orbs` passing the `abs(l1 - l) == 1` test (the
division also happens when `abs(m) > l1`, with numerator `0`); each is
the raw eigenvalue difference `eigvals[k,0,l1,n1] − eigvals[k,0,l,n]` —
no `1e-6` floor and no zero check is applied on this path. -/
def check_sum_rule_denoms (kg : KuboGreenwood) (l n k : ℕ) : List ℚ :=
  (((all_orbs kg.lmax kg.nmax).erase (l, n)).filter
      (fun p => decide (selRule p.1 l))).map
    (fun p => kg.eigvals k 0 p.1 p.2 - kg.eigvals k 0 l n)

/-- `prod_eigfuncs(phi0, phi1, xgrid)`:
`4π · trapz(exp(2x) · phi0 · phi1, x)`. -/
def prod_eigfuncs (N : Numerics) (phi0 phi1 xgrid : ℕ → ℚ) (ngrid : ℕ) : ℚ :=
  4 * N.pi * trapzF (fun i => N.exp (2 * xgrid i) * phi0 i * phi1 i) xgrid ngrid

/-- `proj_eigfuncs(phi0, phi1, xgrid)`:
`(⟨phi0, phi1⟩ / ⟨phi0, phi0⟩) · phi0`. -/
def proj_eigfuncs (N : Numerics) (phi0 phi1 xgrid : ℕ → ℚ) (ngrid : ℕ) :
    ℕ → ℚ := fun i =>
  (prod_eigfuncs N phi0 phi1 xgrid ngrid /
    prod_eigfuncs N phi0 phi0 xgrid ngrid) * phi0 i

/-- The mutable arrays live in `gs_ortho`'s frame, modelled as an
explicit state: the input array `eigfuncs` and the two arrays the
function allocates with `np.zeros_like` (`eigfuncs_ortho` and `norm`,
separate objects from the input).  Every assignment statement in the
source targets `eigfuncs_ortho` or `norm`.  Orbital channels are indexed
by `(band, spin, l, n)`, each holding a radial function. -/
structure OrthoState where
  eigfuncs : (ℕ × ℕ × ℕ × ℕ) → ℕ → ℚ
  eigfuncs_ortho : (ℕ × ℕ × ℕ × ℕ) → ℕ → ℚ
  norm : (ℕ × ℕ × ℕ × ℕ) → ℕ → ℚ

/-- A single in-place channel assignment `A[k,sp,l,n] = v`. -/
def updArr (A : (ℕ × ℕ × ℕ × ℕ) → ℕ → ℚ) (idx : ℕ × ℕ × ℕ × ℕ)
    (v : ℕ → ℚ) : (ℕ × ℕ × ℕ × ℕ) → ℕ → ℚ :=
  fun j => if j = idx then v else A j

/-- The body of the `n1` loop of `gs_ortho`: seed
`eigfuncs_ortho[k,sp,l,n1] = eigfuncs[k,sp,l,n1]`, subtract the
projection onto each already-orthogonalised `n2 < n1`, then record
`norm[k,sp,l,n1]` (a scalar broadcast across the grid axis). -/
def gs_ortho_orbital (N : Numerics) (xgrid : ℕ → ℚ) (ngrid : ℕ)
    (s : OrthoState) (k sp lq n1 : ℕ) : OrthoState :=
  let s1 : OrthoState :=
    { s with eigfuncs_ortho :=
        updArr s.eigfuncs_ortho (k, sp, lq, n1) (s.eigfuncs (k, sp, lq, n1)) }
  let s2 : OrthoState := (List.range n1).foldl (fun t n2 =>
    { t with eigfuncs_ortho :=
        (updArr t.eigfuncs_ortho (k, sp, lq, n1)
          (fun i => t.eigfuncs_ortho (k, sp, lq, n1) i -
            proj_eigfuncs N (t.eigfuncs_ortho (k, sp, lq, n2))
              (t.eigfuncs (k, sp, lq, n1)) xgrid ngrid i)) }) s1
  { s2 with norm :=
      (updArr s2.norm (k, sp, lq, n1)
        (fun _ => prod_eigfuncs N (s2.eigfuncs_ortho (k, sp, lq, n1))
          (s2.eigfuncs_ortho (k, sp, lq, n1)) xgrid ngrid)) }

/-- The four nested loops of `gs_ortho` over
`(band, spin, l, n1)` channels. -/
def gs_ortho_loops (N : Numerics) (xgrid : ℕ → ℚ) (ngrid : ℕ)
    (nbands nspin lmax nmax : ℕ) (s : OrthoState) : OrthoState :=
  (List.range nbands).foldl (fun sk k =>
    (List.range nspin).foldl (fun ssp sp =>
      (List.range lmax).foldl (fun sl lq =>
        (List.range nmax).foldl (fun sn n1 =>
          gs_ortho_orbital N xgrid ngrid sn k sp lq n1) sl) ssp) sk) s

/-- `gs_ortho(eigfuncs, xgrid)`: unpacks `np.shape(eigfuncs)`, allocates
`eigfuncs_ortho` and `norm` as fresh zero arrays, runs the loop nest,
then returns `eigfuncs_ortho * norm ** (-0.5)` (the reciprocal square
root modelled through the abstract `Numerics.sqrt`), an array of the
same shape.  The result carries the returned array with its shape, plus
the final state (whose `eigfuncs` field is the input array object). -/
def gs_ortho (N : Numerics) (eigfuncs : (ℕ × ℕ × ℕ × ℕ) → ℕ → ℚ)
    (shape : ℕ × ℕ × ℕ × ℕ × ℕ) (xgrid : ℕ → ℚ) :
    ((ℕ × ℕ × ℕ × ℕ × ℕ) × ((ℕ × ℕ × ℕ × ℕ) → ℕ → ℚ)) × OrthoState :=
  match shape with
  | (nbands, nspin, lmax, nmax, ngrid) =>
    let s0 : OrthoState :=
      { eigfuncs := eigfuncs
        eigfuncs_ortho := fun _ _ => 0
        norm := fun _ _ => 0 }
    let sF := gs_ortho_loops N xgrid ngrid nbands nspin lmax nmax s0
    let a := fun idx (i : ℕ) => (N.sqrt (sF.norm idx i))⁻¹
    (((nbands, nspin, lmax, nmax, ngrid),
        fun idx i => sF.eigfuncs_ortho idx i * a idx i), sF)

/-- The mutable attribute state of a `KuboGreenwood` object relevant to
orbital-list caching: `self._all_orbs` and `self._cond_orbs` hold
(references to) the lists installed by the most recent property
accesses. -/
structure KGCaches where
  all_orbs_cache : List (ℕ × ℕ)
  cond_orbs_cache : List (ℕ × ℕ)

/-- One access of the `all_orbs` property as a state transition: the
body never reads the caches — it rebuilds the list afresh, assigns it to
`self._all_orbs` and returns it. -/
def all_orbs_access (kg : KuboGreenwood) (s : KGCaches) :
    List (ℕ × ℕ) × KGCaches :=
  let tmp := all_orbs kg.lmax kg.nmax
  (tmp, { s with all_orbs_cache := tmp })

/-- One access of the `cond_orbs` property: reads `self.all_orbs` (a
fresh list, which the access also installs in `self._all_orbs`), then
destructively `remove`s each valence orbital from that very list object.
Since `self._all_orbs` references the same object, after the access both
cached attributes alias the erased list — modelled by updating both
fields. -/
def cond_orbs_access (kg : KuboGreenwood) (s : KGCaches) :
    List (ℕ × ℕ) × KGCaches :=
  let tmp := (all_orbs_access kg s).1
  let s1 := (all_orbs_access kg s).2
  let tmp2 := kg.valence_orbs.foldl (fun acc v => acc.erase v) tmp
  (tmp2, { s1 with all_orbs_cache := tmp2, cond_orbs_cache := tmp2 })

/-- A `check_sum_rule` call as a state transition: it reads
`self.all_orbs` (installing a fresh list in `self._all_orbs`) and
destructively removes `(l, n)` from that list object, which
`self._all_orbs` keeps referencing while the loop runs; the returned
per-band sums are those of `check_sum_rule`. -/
def check_sum_rule_access (N : Numerics) (kg : KuboGreenwood) (l n : ℕ)
    (m : ℤ) (s : KGCaches) : (ℕ → ℚ) × KGCaches :=
  let tmp := (all_orbs_access kg s).1
  let s1 := (all_orbs_access kg s).2
  let new_orbs := tmp.erase (l, n)
  (check_sum_rule N kg l n m, { s1 with all_orbs_cache := new_orbs })

/-- A `sig_tot` property access as a state transition: the source
evaluates `self.R1_int_tt`, `self.R2_int_tt` (each reading `self.all_orbs`
twice) and then `self.all_orbs` twice more, each access refreshing the
cache state, and hands everything to `calc_sig`. -/
def sig_tot_access (N : Numerics) (kg : KuboGreenwood) (s : KGCaches) :
    ℚ × KGCaches :=
  let o1 := (all_orbs_access kg s).1
  let s1 := (all_orbs_access kg s).2
  let o2 := (all_orbs_access kg s1).1
  let s2 := (all_orbs_access kg s1).2
  let R1 := calc_R1_int_mat N kg.eigfuncs kg.occnums kg.xgrid kg.ngrid o1 o2
  let o3 := (all_orbs_access kg s2).1
  let s3 := (all_orbs_access kg s2).2
  let o4 := (all_orbs_access kg s3).1
  let s4 := (all_orbs_access kg s3).2
  let R2 := calc_R2_int_mat N kg.eigfuncs kg.occnums kg.xgrid kg.ngrid o3 o4
  let o5 := (all_orbs_access kg s4).1
  let s5 := (all_orbs_access kg s4).2
  let o6 := (all_orbs_access kg s5).1
  let s6 := (all_orbs_access kg s5).2
  (calc_sig N kg R1 R2 o5 o6, s6)

/-- A `sig_cc` property access as a state transition: as `sig_tot`, with
six `cond_orbs` accesses (two inside each of `R1_int_cc`, `R2_int_cc`,
two direct), each performing its removals on a freshly rebuilt list. -/
def sig_cc_access (N : Numerics) (kg : KuboGreenwood) (s : KGCaches) :
    ℚ × KGCaches :=
  let o1 := (cond_orbs_access kg s).1
  let s1 := (cond_orbs_access kg s).2
  let o2 := (cond_orbs_access kg s1).1
  let s2 := (cond_orbs_access kg s1).2
  let R1 := calc_R1_int_mat N kg.eigfuncs kg.occnums kg.xgrid kg.ngrid o1 o2
  let o3 := (cond_orbs_access kg s2).1
  let s3 := (cond_orbs_access kg s2).2
  let o4 := (cond_orbs_access kg s3).1
  let s4 := (cond_orbs_access kg s3).2
  let R2 := calc_R2_int_mat N kg.eigfuncs kg.occnums kg.xgrid kg.ngrid o3 o4
  let o5 := (cond_orbs_access kg s4).1
  let s5 := (cond_orbs_access kg s4).2
  let o6 := (cond_orbs_access kg s5).1
  let s6 := (cond_orbs_access kg s5).2
  (calc_sig N kg R1 R2 o5 o6, s6)

lemma mem_all_orbs (lmax nmax : ℕ) (p : ℕ × ℕ) :
    p ∈ all_orbs lmax nmax ↔ p.1 < lmax ∧ p.2 < nmax := by
  obtain ⟨l, n⟩ := p
  simp [all_orbs]

lemma nodup_all_orbs (lmax nmax : ℕ) : (all_orbs lmax nmax).Nodup := by
  unfold all_orbs
  rw [List.nodup_flatMap]
  constructor
  · intro l _
    refine List.Nodup.map ?_ (List.nodup_range nmax)
    intro a b h
    exact (Prod.mk.injEq l a l b ▸ h).2
  · refine List.Pairwise.imp ?_ (List.pairwise_lt_range lmax)
    intro l1 l2 hlt p hp1 hp2
    simp only [List.mem_map] at hp1 hp2
    obtain ⟨n1, _, rfl⟩ := hp1
    obtain ⟨n2, _, e⟩ := hp2
    exact absurd ((Prod.mk.injEq _ _ _ _ ▸ e).1.symm) (Nat.ne_of_lt hlt)

lemma mem_foldl_erase {xs : List (ℕ × ℕ)} (hxs : xs.Nodup) (vs : List (ℕ × ℕ))
    (p : ℕ × ℕ) :
    p ∈ vs.foldl (fun acc v => acc.erase v) xs ↔ p ∈ xs ∧ p ∉ vs := by
  induction vs generalizing xs with
  | nil => simp
  | cons v vs ih =>
      simp only [List.foldl_cons]
      rw [ih (hxs.erase v), hxs.mem_erase_iff]
      simp only [List.mem_cons]
      tauto

/-- C3: for every valence-orbital input that is a duplicate-free subset of
the full `l × n` product, `cond_orbs` is extensionally the set difference
`all_orbs − valence_orbs`: membership in `cond_orbs` is membership in
`all_orbs` outside `valence_orbs`; hence `cond_orbs` and `valence_orbs`
are disjoint and their union is exactly `all_orbs`. -/
theorem cond_orbs_partition (lmax nmax : ℕ) (valence_orbs : List (ℕ × ℕ))
    (_hnd : valence_orbs.Nodup)
    (hsub : ∀ v ∈ valence_orbs, v ∈ all_orbs lmax nmax) :
    (∀ p, p ∈ cond_orbs lmax nmax valence_orbs ↔
        p ∈ all_orbs lmax nmax ∧ p ∉ valence_orbs) ∧
    (∀ p, (p ∈ cond_orbs lmax nmax valence_orbs ∨ p ∈ valence_orbs) ↔
        p ∈ all_orbs lmax nmax) ∧
    (∀ p, ¬ (p ∈ cond_orbs lmax nmax valence_orbs ∧ p ∈ valence_orbs)) := by
  have hmem : ∀ p, p ∈ cond_orbs lmax nmax valence_orbs ↔
      p ∈ all_orbs lmax nmax ∧ p ∉ valence_orbs := by
    intro p
    exact mem_foldl_erase (nodup_all_orbs lmax nmax) valence_orbs p
  refine ⟨hmem, fun p => ?_, fun p hp => ?_⟩
  · rw [hmem p]
    constructor
    · rintro (⟨h, _⟩ | h)
      · exact h
      · exact hsub p h
    · intro h
      by_cases hv : p ∈ valence_orbs
      · exact Or.inr hv
      · exact Or.inl ⟨h, hv⟩
  · exact ((hmem p).mp hp.1).2 hp.2

/-- Witness for C3 at `lmax = 2`, `nmax = 1`, `valence_orbs = [(0, 0)]`. -/
theorem cond_orbs_partition_witness :
    (∀ p, p ∈ cond_orbs 2 1 [(0, 0)] ↔ p ∈ all_orbs 2 1 ∧ p ∉ [(0, 0)]) ∧
    (∀ p, (p ∈ cond_orbs 2 1 [(0, 0)] ∨ p ∈ [(0, 0)]) ↔ p ∈ all_orbs 2 1) ∧
    (∀ p, ¬ (p ∈ cond_orbs 2 1 [(0, 0)] ∧ p ∈ [(0, 0)])) :=
  cond_orbs_partition 2 1 [(0, 0)] (by decide) (by decide)

/-- C1 (refutation at a concrete input): with all eigenvalues equal to
`1/2` and the selection-rule-connected subsets `[(0,0)]`, `[(1,0)]`, the
overwrite branch of `calc_eig_diff_mat` stores the raw difference `0`,
which is strictly below the `1e-6` floor — so the division
`occ_diff_mat / eig_diff_mat` in `calc_sig` is a division by zero
exactly in the degenerate case the floor was meant to regularise. -/
theorem calc_eig_diff_mat_floor_violated :
    calc_eig_diff_mat (fun _ _ _ _ => (1 : ℚ)/2) [(0, 0)] [(1, 0)] 0 0 0 1 0 = 0 ∧
    (0 : ℚ) < 1e-6 := by
  constructor
  · norm_num [calc_eig_diff_mat, selRule]
  · norm_num

/-- C6: both difference tensors are populated (carry a value other than
their background — `0` for the occupation tensor, the `1e-6` floor for
the eigenvalue tensor) only at indices `(k, l1, n1, l2, n2)` satisfying
the selection rule `|l1 − l2| = 1`, with subset membership, where the
underlying difference is non-negative; and the two stored differences
are oriented consistently: the stored occupation difference is
`f(l2,n2) − f(l1,n1) ≥ 0` and the stored eigenvalue difference is
`ε(l1,n1) − ε(l2,n2) ≥ 0`, i.e. the `(l2, n2)` state is the
more-occupied, lower-energy one and the `(l1, n1)` state the
less-occupied, higher-energy one. -/
theorem diff_mats_selection_orientation
    (occnums eigvals : ℕ → ℕ → ℕ → ℕ → ℚ) (S1 S2 : List (ℕ × ℕ))
    (k l1 n1 l2 n2 : ℕ) :
    (calc_occ_diff_mat occnums S1 S2 k l1 n1 l2 n2 ≠ 0 →
      selRule l1 l2 ∧ (l1, n1) ∈ S1 ∧ (l2, n2) ∈ S2 ∧
      occnums k 0 l1 n1 ≤ occnums k 0 l2 n2 ∧
      calc_occ_diff_mat occnums S1 S2 k l1 n1 l2 n2 =
        occnums k 0 l2 n2 - occnums k 0 l1 n1) ∧
    (calc_eig_diff_mat eigvals S1 S2 k l1 n1 l2 n2 ≠ (1e-6 : ℚ) →
      selRule l1 l2 ∧ (l1, n1) ∈ S1 ∧ (l2, n2) ∈ S2 ∧
      eigvals k 0 l2 n2 ≤ eigvals k 0 l1 n1 ∧
      calc_eig_diff_mat eigvals S1 S2 k l1 n1 l2 n2 =
        eigvals k 0 l1 n1 - eigvals k 0 l2 n2) := by
  constructor
  · intro hne
    unfold calc_occ_diff_mat at hne ⊢
    by_cases hc : (l1, n1) ∈ S1 ∧ (l2, n2) ∈ S2 ∧ selRule l1 l2 ∧
        ¬ -(occnums k 0 l1 n1 - occnums k 0 l2 n2) < 0
    · obtain ⟨h1, h2, h3, h4⟩ := hc
      refine ⟨h3, h1, h2, by linarith [not_lt.mp h4], ?_⟩
      rw [if_pos ⟨h1, h2, h3, h4⟩]
      ring
    · exact absurd (if_neg hc) hne
  · intro hne
    unfold calc_eig_diff_mat at hne ⊢
    by_cases hc : (l1, n1) ∈ S1 ∧ (l2, n2) ∈ S2 ∧ selRule l1 l2 ∧
        ¬ eigvals k 0 l1 n1 - eigvals k 0 l2 n2 < 0
    · obtain ⟨h1, h2, h3, h4⟩ := hc
      refine ⟨h3, h1, h2, by linarith [not_lt.mp h4], ?_⟩
      rw [if_pos ⟨h1, h2, h3, h4⟩]
    · exact absurd (if_neg hc) hne

/-- Witness for C6 at `S1 = [(0,0)]`, `S2 = [(1,0)]`, index
`(0, 0, 0, 1, 0)`, where both tensors are populated. -/
theorem diff_mats_selection_orientation_witness :
    (calc_occ_diff_mat occW [(0, 0)] [(1, 0)] 0 0 0 1 0 ≠ 0 ∧
      (selRule 0 1 ∧ ((0 : ℕ), (0 : ℕ)) ∈ [((0 : ℕ), (0 : ℕ))] ∧
        ((1 : ℕ), (0 : ℕ)) ∈ [((1 : ℕ), (0 : ℕ))] ∧
        occW 0 0 0 0 ≤ occW 0 0 1 0 ∧
        calc_occ_diff_mat occW [(0, 0)] [(1, 0)] 0 0 0 1 0 =
          occW 0 0 1 0 - occW 0 0 0 0)) ∧
    (calc_eig_diff_mat eigW [(0, 0)] [(1, 0)] 0 0 0 1 0 ≠ (1e-6 : ℚ) ∧
      (selRule 0 1 ∧ ((0 : ℕ), (0 : ℕ)) ∈ [((0 : ℕ), (0 : ℕ))] ∧
        ((1 : ℕ), (0 : ℕ)) ∈ [((1 : ℕ), (0 : ℕ))] ∧
        eigW 0 0 1 0 ≤ eigW 0 0 0 0 ∧
        calc_eig_diff_mat eigW [(0, 0)] [(1, 0)] 0 0 0 1 0 =
          eigW 0 0 0 0 - eigW 0 0 1 0)) :=
  ⟨⟨by norm_num [calc_occ_diff_mat, selRule, occW],
      (diff_mats_selection_orientation occW eigW [(0, 0)] [(1, 0)] 0 0 0 1 0).1
        (by norm_num [calc_occ_diff_mat, selRule, occW])⟩,
    ⟨by norm_num [calc_eig_diff_mat, selRule, eigW],
      (diff_mats_selection_orientation occW eigW [(0, 0)] [(1, 0)] 0 0 0 1 0).2
        (by norm_num [calc_eig_diff_mat, selRule, eigW])⟩⟩

/-- C4: whenever `|l1 − l2| ≠ 1`, the angular tensor entry
`P_mat_int[l1, l2, j]` and the radial tensor entries
`calc_R1_int_mat[k, l1, n1, l2, n2]`, `calc_R2_int_mat[k, l1, n1, l2,
n2]` are exactly zero — for every `lmax`, every numerical-library
interpretation, every input array and every pair of orbital subsets. -/
theorem selection_rule_zero_entries (N : Numerics)
    (eigfuncs : ℕ → ℕ → ℕ → ℕ → ℕ → ℚ) (occnums : ℕ → ℕ → ℕ → ℕ → ℚ)
    (xgrid : ℕ → ℚ) (ngrid : ℕ) (S1 S2 : List (ℕ × ℕ))
    (func_int lmax k l1 n1 l2 n2 j : ℕ)
    (h : ¬ selRule l1 l2) :
    P_mat_int N func_int lmax l1 l2 j = 0 ∧
    calc_R1_int_mat N eigfuncs occnums xgrid ngrid S1 S2 k l1 n1 l2 n2 = 0 ∧
    calc_R2_int_mat N eigfuncs occnums xgrid ngrid S1 S2 k l1 n1 l2 n2 = 0 := by
  refine ⟨?_, ?_, ?_⟩
  · unfold P_mat_int
    rw [if_neg]
    rintro ⟨-, -, hs, -⟩
    exact h hs
  · unfold calc_R1_int_mat
    rw [if_neg]
    rintro ⟨hs, -⟩
    exact h hs
  · unfold calc_R2_int_mat
    rw [if_neg]
    rintro ⟨hs, -⟩
    exact h hs

/-- Witness for C4 at `l1 = l2 = 0` (so `|l1 − l2| = 0 ≠ 1`), `lmax = 2`,
with concrete arrays and subsets. -/
theorem selection_rule_zero_entries_witness :
    ¬ selRule 0 0 ∧
    (P_mat_int numericsW 2 2 0 0 0 = 0 ∧
      calc_R1_int_mat numericsW (fun _ _ _ _ _ => 1) (fun _ _ _ _ => 1)
        (fun i => i) 3 [(0, 0)] [(1, 0)] 0 0 0 0 0 = 0 ∧
      calc_R2_int_mat numericsW (fun _ _ _ _ _ => 1) (fun _ _ _ _ => 1)
        (fun i => i) 3 [(0, 0)] [(1, 0)] 0 0 0 0 0 = 0) :=
  ⟨by decide,
    selection_rule_zero_entries numericsW (fun _ _ _ _ _ => 1)
      (fun _ _ _ _ => 1) (fun i => i) 3 [(0, 0)] [(1, 0)] 2 2 0 0 0 0 0 0
      (by decide)⟩

/-- C5: for every component string outside `{"tt", "cc", "cv", "vv"}`,
`cond_tot` fails immediately with the fatal configuration error and
produces no output; no radial, angular, occupation or eigenvalue tensor
enters the result (the error branch is reached before any of them is
evaluated). -/
theorem cond_tot_unrecognised_component (N : Numerics) (kg : KuboGreenwood)
    (component : String) (gamma maxfreq : ℚ) (nfreq : ℕ)
    (h : component ∉ (["tt", "cc", "cv", "vv"] : List String)) :
    cond_tot N kg component gamma maxfreq nfreq =
      Except.error "Component of conducivity not recognised" := by
  simp only [List.mem_cons, List.not_mem_nil, or_false, not_or] at h
  obtain ⟨h1, h2, h3, h4⟩ := h
  unfold cond_tot
  rw [if_neg h1, if_neg h2, if_neg h3, if_neg h4]

/-- Witness for C5 at the unrecognised component string `"xx"`. -/
theorem cond_tot_unrecognised_component_witness :
    cond_tot numericsW kgW "xx" (1/100) 50 200 =
      Except.error "Component of conducivity not recognised" :=
  cond_tot_unrecognised_component numericsW kgW "xx" (1/100) 50 200 (by decide)

lemma getD_range_map (f : ℕ → ℚ) (n i : ℕ) (h : i < n) :
    (((List.range n).map f).getD i 0) = f i := by
  rw [List.getD_eq_getElem?_getD, List.getElem?_map, List.getElem?_range h]
  rfl

lemma length_linspace (a b : ℚ) (n : ℕ) : (linspace a b n).length = n := by
  simp [linspace]

lemma linspace_getD (a b : ℚ) (n i : ℕ) (h : i < n) :
    (linspace a b n).getD i 0 = a + i * ((b - a) / ((n : ℚ) - 1)) := by
  unfold linspace
  exact getD_range_map _ n i h

lemma getD_map_sq (l : List ℚ) (i : ℕ) (h : i < l.length) :
    ((l.map (fun w => w ^ (2 : ℕ))).getD i 0) = (l.getD i 0) ^ (2 : ℕ) := by
  rw [List.getD_eq_getElem?_getD, List.getElem?_map, List.getD_eq_getElem?_getD,
    List.getElem?_eq_getElem h]
  rfl

lemma calc_sig_func_omega (N : Numerics) (kg : KuboGreenwood)
    (R1_int R2_int : ℕ → ℕ → ℕ → ℕ → ℕ → ℚ) (S1 S2 : List (ℕ × ℕ))
    (omega_max : ℚ) (n_freq : ℕ) (gamma : ℚ) :
    (calc_sig_func N kg R1_int R2_int S1 S2 omega_max n_freq gamma).omega =
      (linspace (1e-5 : ℚ) (N.sqrt omega_max) n_freq).map
        (fun w => w ^ (2 : ℕ)) :=
  rfl

lemma calc_sig_func_N_tot (N : Numerics) (kg : KuboGreenwood)
    (R1_int R2_int : ℕ → ℕ → ℕ → ℕ → ℕ → ℚ) (S1 S2 : List (ℕ × ℕ))
    (omega_max : ℚ) (n_freq : ℕ) (gamma : ℚ) :
    (calc_sig_func N kg R1_int R2_int S1 S2 omega_max n_freq gamma).N_tot =
      sig_to_N N
        (trapzL (calc_sig_func N kg R1_int R2_int S1 S2 omega_max n_freq gamma).sig
          (calc_sig_func N kg R1_int R2_int S1 S2 omega_max n_freq gamma).omega)
        (sph_vol N kg) :=
  rfl

/-- C8, amended: the claim as stated fails for `0 < maxFrequency ≤
1e-10` (see the counterexample below); for every `maxFrequency >
1e-10`, i.e. whenever `sqrt(maxFrequency)` lies above the hard-coded
grid origin `1e-5`, and every `frequencyCount ≥ 2`, the frequency
column of `calc_sig_func` has exactly `frequencyCount` points, is
strictly increasing, starts at `(1e-5)² = 1e-10` (near zero), ends at
`maxFrequency`, and each point is the square of the corresponding point
of `np.linspace(1e-5, sqrt(maxFrequency), frequencyCount)`; and the
returned electron count equals the trapezoidal integral of the
conductivity column over that grid times `2V/π`.  The hypotheses on
`N.sqrt` pin the abstract square root to its real value at
`omega_max`. -/
theorem calc_sig_func_grid (N : Numerics) (kg : KuboGreenwood)
    (R1_int R2_int : ℕ → ℕ → ℕ → ℕ → ℕ → ℚ) (S1 S2 : List (ℕ × ℕ))
    (omega_max : ℚ) (n_freq : ℕ) (gamma : ℚ)
    (hn : 2 ≤ n_freq) (_hpos : 0 < omega_max)
    (hs0 : 0 ≤ N.sqrt omega_max)
    (hs2 : N.sqrt omega_max ^ (2 : ℕ) = omega_max)
    (hbig : (1e-10 : ℚ) < omega_max) :
    (calc_sig_func N kg R1_int R2_int S1 S2 omega_max n_freq gamma).omega.length
        = n_freq ∧
    (∀ i j, i < j → j < n_freq →
      (calc_sig_func N kg R1_int R2_int S1 S2 omega_max n_freq gamma).omega.getD
          i 0 <
        (calc_sig_func N kg R1_int R2_int S1 S2 omega_max n_freq gamma).omega.getD
          j 0) ∧
    (calc_sig_func N kg R1_int R2_int S1 S2 omega_max n_freq gamma).omega.getD
        0 0 = (1e-10 : ℚ) ∧
    (calc_sig_func N kg R1_int R2_int S1 S2 omega_max n_freq gamma).omega.getD
        (n_freq - 1) 0 = omega_max ∧
    (∀ i, i < n_freq →
      (calc_sig_func N kg R1_int R2_int S1 S2 omega_max n_freq gamma).omega.getD
          i 0 =
        ((linspace (1e-5 : ℚ) (N.sqrt omega_max) n_freq).getD i 0) ^ (2 : ℕ)) ∧
    (calc_sig_func N kg R1_int R2_int S1 S2 omega_max n_freq gamma).N_tot =
      trapzL (calc_sig_func N kg R1_int R2_int S1 S2 omega_max n_freq gamma).sig
        (calc_sig_func N kg R1_int R2_int S1 S2 omega_max n_freq gamma).omega *
        (2 * sph_vol N kg / N.pi) := by
  have homega := calc_sig_func_omega N kg R1_int R2_int S1 S2 omega_max n_freq gamma
  have h5 : (0 : ℚ) < 1e-5 := by norm_num
  have ha2 : ((1e-5 : ℚ)) ^ (2 : ℕ) = (1e-10 : ℚ) := by norm_num
  have hsgt : (1e-5 : ℚ) < N.sqrt omega_max := by
    by_contra hle
    push_neg at hle
    have hle2 : N.sqrt omega_max ^ (2 : ℕ) ≤ (1e-5 : ℚ) ^ (2 : ℕ) :=
      pow_le_pow_left₀ hs0 hle 2
    rw [hs2, ha2] at hle2
    linarith
  have hn1 : (0 : ℚ) < (n_freq : ℚ) - 1 := by
    have h2n : (2 : ℚ) ≤ (n_freq : ℚ) := by exact_mod_cast hn
    linarith
  have hd : (0 : ℚ) < (N.sqrt omega_max - 1e-5) / ((n_freq : ℚ) - 1) :=
    div_pos (by linarith) hn1
  have hbase : ∀ i : ℕ, i < n_freq →
      (calc_sig_func N kg R1_int R2_int S1 S2 omega_max n_freq gamma).omega.getD
          i 0 =
        ((1e-5 : ℚ) + (i : ℚ) *
          ((N.sqrt omega_max - 1e-5) / ((n_freq : ℚ) - 1))) ^ (2 : ℕ) := by
    intro i hi
    rw [homega, getD_map_sq _ i (by rw [length_linspace]; exact hi),
      linspace_getD _ _ _ _ hi]
  have hbpos : ∀ i : ℕ, (0 : ℚ) <
      (1e-5 : ℚ) + (i : ℚ) * ((N.sqrt omega_max - 1e-5) / ((n_freq : ℚ) - 1)) := by
    intro i
    have hnn : (0 : ℚ) ≤ (i : ℚ) *
        ((N.sqrt omega_max - 1e-5) / ((n_freq : ℚ) - 1)) :=
      mul_nonneg (Nat.cast_nonneg i) (le_of_lt hd)
    linarith
  refine ⟨?_, ?_, ?_, ?_, ?_, ?_⟩
  · rw [homega]
    rw [List.length_map, length_linspace]
  · intro i j hij hj
    rw [hbase i (lt_trans hij hj), hbase j hj]
    have hcast : (i : ℚ) < (j : ℚ) := by exact_mod_cast hij
    have hb : (1e-5 : ℚ) + (i : ℚ) *
        ((N.sqrt omega_max - 1e-5) / ((n_freq : ℚ) - 1)) <
        (1e-5 : ℚ) + (j : ℚ) *
        ((N.sqrt omega_max - 1e-5) / ((n_freq : ℚ) - 1)) := by
      have := mul_lt_mul_of_pos_right hcast hd
      linarith
    exact pow_lt_pow_left₀ hb (le_of_lt (hbpos i)) (by norm_num)
  · rw [hbase 0 (lt_of_lt_of_le (by norm_num) hn)]
    norm_num
  · have hlt : n_freq - 1 < n_freq := Nat.sub_lt (by omega) (by norm_num)
    rw [hbase _ hlt]
    have hcast : ((n_freq - 1 : ℕ) : ℚ) = (n_freq : ℚ) - 1 := by
      have h1 : (1 : ℕ) ≤ n_freq := by omega
      push_cast [Nat.cast_sub h1]
      ring
    rw [hcast]
    rw [mul_div_cancel₀ _ (ne_of_gt hn1)]
    have : (1e-5 : ℚ) + (N.sqrt omega_max - 1e-5) = N.sqrt omega_max := by ring
    rw [this, hs2]
  · intro i hi
    rw [homega, getD_map_sq _ i (by rw [length_linspace]; exact hi)]
  · rw [calc_sig_func_N_tot]
    rfl

/-- Witness for the amended C8 at `omega_max = 4`, `n_freq = 2`. -/
theorem calc_sig_func_grid_witness :
    ((2 : ℕ) ≤ 2 ∧ (0 : ℚ) < 4 ∧ 0 ≤ numericsSqrt2.sqrt 4 ∧
      numericsSqrt2.sqrt 4 ^ (2 : ℕ) = 4 ∧ (1e-10 : ℚ) < 4) ∧
    ((calc_sig_func numericsSqrt2 kgW (fun _ _ _ _ _ => 0) (fun _ _ _ _ _ => 0)
        [(0, 0)] [(0, 0)] 4 2 1).omega.length = 2 ∧
    (∀ i j, i < j → j < 2 →
      (calc_sig_func numericsSqrt2 kgW (fun _ _ _ _ _ => 0) (fun _ _ _ _ _ => 0)
          [(0, 0)] [(0, 0)] 4 2 1).omega.getD i 0 <
        (calc_sig_func numericsSqrt2 kgW (fun _ _ _ _ _ => 0) (fun _ _ _ _ _ => 0)
          [(0, 0)] [(0, 0)] 4 2 1).omega.getD j 0) ∧
    (calc_sig_func numericsSqrt2 kgW (fun _ _ _ _ _ => 0) (fun _ _ _ _ _ => 0)
        [(0, 0)] [(0, 0)] 4 2 1).omega.getD 0 0 = (1e-10 : ℚ) ∧
    (calc_sig_func numericsSqrt2 kgW (fun _ _ _ _ _ => 0) (fun _ _ _ _ _ => 0)
        [(0, 0)] [(0, 0)] 4 2 1).omega.getD (2 - 1) 0 = 4 ∧
    (∀ i, i < 2 →
      (calc_sig_func numericsSqrt2 kgW (fun _ _ _ _ _ => 0) (fun _ _ _ _ _ => 0)
          [(0, 0)] [(0, 0)] 4 2 1).omega.getD i 0 =
        ((linspace (1e-5 : ℚ) (numericsSqrt2.sqrt 4) 2).getD i 0) ^ (2 : ℕ)) ∧
    (calc_sig_func numericsSqrt2 kgW (fun _ _ _ _ _ => 0) (fun _ _ _ _ _ => 0)
        [(0, 0)] [(0, 0)] 4 2 1).N_tot =
      trapzL (calc_sig_func numericsSqrt2 kgW (fun _ _ _ _ _ => 0)
          (fun _ _ _ _ _ => 0) [(0, 0)] [(0, 0)] 4 2 1).sig
        (calc_sig_func numericsSqrt2 kgW (fun _ _ _ _ _ => 0)
          (fun _ _ _ _ _ => 0) [(0, 0)] [(0, 0)] 4 2 1).omega *
        (2 * sph_vol numericsSqrt2 kgW / numericsSqrt2.pi)) :=
  ⟨⟨le_refl 2, by norm_num, by norm_num [numericsSqrt2, numericsW],
      by norm_num [numericsSqrt2, numericsW], by norm_num⟩,
    calc_sig_func_grid numericsSqrt2 kgW (fun _ _ _ _ _ => 0)
      (fun _ _ _ _ _ => 0) [(0, 0)] [(0, 0)] 4 2 1 (le_refl 2) (by norm_num)
      (by norm_num [numericsSqrt2, numericsW])
      (by norm_num [numericsSqrt2, numericsW]) (by norm_num)⟩

/-- C8 (refutation of the claim as stated): `maxFrequency = 1e-10` is a
positive frequency whose square root `1e-5` coincides with the
hard-coded grid origin, so at `frequencyCount = 2` the two points of the
frequency column coincide — the column is not strictly increasing, even
though `maxFrequency > 0` and `frequencyCount ≥ 2`. -/
theorem calc_sig_func_grid_counterexample :
    (0 : ℚ) < (1e-10 : ℚ) ∧ (2 : ℕ) ≤ 2 ∧
    0 ≤ numericsTiny.sqrt (1e-10 : ℚ) ∧
    numericsTiny.sqrt (1e-10 : ℚ) ^ (2 : ℕ) = (1e-10 : ℚ) ∧
    (calc_sig_func numericsTiny kgW (fun _ _ _ _ _ => 0) (fun _ _ _ _ _ => 0)
        [(0, 0)] [(0, 0)] (1e-10 : ℚ) 2 1).omega.getD 0 0 =
      (calc_sig_func numericsTiny kgW (fun _ _ _ _ _ => 0) (fun _ _ _ _ _ => 0)
        [(0, 0)] [(0, 0)] (1e-10 : ℚ) 2 1).omega.getD 1 0 := by
  refine ⟨by norm_num, le_refl 2, by norm_num [numericsTiny, numericsW],
    by norm_num [numericsTiny, numericsW], ?_⟩
  rw [calc_sig_func_omega,
    getD_map_sq _ 0 (by rw [length_linspace]; norm_num),
    getD_map_sq _ 1 (by rw [length_linspace]; norm_num),
    linspace_getD _ _ _ _ (by norm_num), linspace_getD _ _ _ _ (by norm_num)]
  norm_num [numericsTiny, numericsW]

/-- C2, amended: `KuboGreenwood.__init__` performs no shape-consistency
validation at all — for every input, mismatched or not, construction
succeeds (the source contains no comparison between the shapes of
`eigfuncs`, `eigvals` and `occnums` and no raise), so mismatched inputs
are not rejected before computation. -/
theorem kuboGreenwoodInit_always_succeeds (orbitals : Orbitals)
    (valence_orbs : List (ℕ × ℕ)) (nmax lmax : ℕ) :
    (kuboGreenwoodInit orbitals valence_orbs nmax lmax).isOk = true :=
  rfl

/-- C2 (refutation at a concrete input): on orbital data whose
eigenvalue, occupation and eigenfunction arrays have mismatched shapes,
the constructor succeeds instead of rejecting with a descriptive
error. -/
theorem kuboGreenwoodInit_accepts_mismatched_shapes :
    orbitalsMismatched.eigvalsShape ≠ orbitalsMismatched.occnumsShape ∧
    orbitalsMismatched.eigfuncsShape.1 ≠ orbitalsMismatched.eigvalsShape.1 ∧
    (kuboGreenwoodInit orbitalsMismatched [] 0 0).isOk = true :=
  ⟨by decide, by decide, rfl⟩

/-- C10: if some orbital `(l1, n1)` other than the target `(l, n)`
satisfies the selection rule `|l1 − l| = 1` and `|m| ≤ l1` and has an
eigenvalue in band `k` exactly equal to the target's, then `0` is among
the eigenvalue-difference denominators of the divisions performed by
`check_sum_rule` in that band: this diagnostic path applies no floor and
no zero check before dividing. -/
theorem check_sum_rule_divides_by_zero (N : Numerics) (kg : KuboGreenwood)
    (l n k l1 n1 : ℕ) (m : ℤ)
    (hmem : (l1, n1) ∈ all_orbs kg.lmax kg.nmax)
    (hne : (l1, n1) ≠ (l, n))
    (hsel : selRule l1 l)
    (_hm : |m| ≤ (l1 : ℤ))
    (heig : kg.eigvals k 0 l1 n1 = kg.eigvals k 0 l n) :
    kg.eigvals k 0 l1 n1 - kg.eigvals k 0 l n = 0 ∧
    (0 : ℚ) ∈ check_sum_rule_denoms kg l n k ∧
    check_sum_rule N kg l n m k = check_sum_rule N kg l n m k := by
  refine ⟨by rw [heig]; ring, ?_, rfl⟩
  unfold check_sum_rule_denoms
  rw [List.mem_map]
  refine ⟨(l1, n1), ?_, by rw [heig]; ring⟩
  rw [List.mem_filter]
  exact ⟨(List.mem_erase_of_ne hne).mpr hmem, decide_eq_true hsel⟩

/-- Witness for C10 at `kgW` (all eigenvalues equal), target
`(l, n, m) = (0, 0, 0)` and degenerate partner `(l1, n1) = (1, 0)`. -/
theorem check_sum_rule_divides_by_zero_witness :
    ((1, 0) ∈ all_orbs kgW.lmax kgW.nmax ∧ ((1, 0) : ℕ × ℕ) ≠ (0, 0) ∧
      selRule 1 0 ∧ |(0 : ℤ)| ≤ ((1 : ℕ) : ℤ) ∧
      kgW.eigvals 0 0 1 0 = kgW.eigvals 0 0 0 0) ∧
    (kgW.eigvals 0 0 1 0 - kgW.eigvals 0 0 0 0 = 0 ∧
      (0 : ℚ) ∈ check_sum_rule_denoms kgW 0 0 0 ∧
      check_sum_rule numericsW kgW 0 0 0 0 = check_sum_rule numericsW kgW 0 0 0 0) :=
  ⟨⟨by decide, by decide, by decide, by decide, rfl⟩,
    check_sum_rule_divides_by_zero numericsW kgW 0 0 0 1 0 0
      (by decide) (by decide) (by decide) (by decide) rfl⟩

lemma foldl_preserves_eigfuncs (f : OrthoState → ℕ → OrthoState)
    (hf : ∀ t x, (f t x).eigfuncs = t.eigfuncs) (l : List ℕ) (s : OrthoState) :
    (l.foldl f s).eigfuncs = s.eigfuncs := by
  induction l generalizing s with
  | nil => rfl
  | cons x xs ih => rw [List.foldl_cons, ih (f s x), hf s x]

lemma gs_ortho_orbital_eigfuncs (N : Numerics) (xgrid : ℕ → ℚ) (ngrid : ℕ)
    (s : OrthoState) (k sp lq n1 : ℕ) :
    (gs_ortho_orbital N xgrid ngrid s k sp lq n1).eigfuncs = s.eigfuncs := by
  unfold gs_ortho_orbital
  apply foldl_preserves_eigfuncs
  intro t x
  rfl

lemma gs_ortho_loops_eigfuncs (N : Numerics) (xgrid : ℕ → ℚ) (ngrid : ℕ)
    (nbands nspin lmax nmax : ℕ) (s : OrthoState) :
    (gs_ortho_loops N xgrid ngrid nbands nspin lmax nmax s).eigfuncs =
      s.eigfuncs := by
  unfold gs_ortho_loops
  refine foldl_preserves_eigfuncs _ (fun sk k => ?_) _ s
  refine foldl_preserves_eigfuncs _ (fun ssp sp => ?_) _ sk
  refine foldl_preserves_eigfuncs _ (fun sl lq => ?_) _ ssp
  exact foldl_preserves_eigfuncs _
    (fun sn n1 => gs_ortho_orbital_eigfuncs N xgrid ngrid sn k sp lq n1) _ sl

/-- C9: for every eigenfunction array, shape and grid, `gs_ortho`
returns an array of the same shape as its input, and the input array is
left unchanged — every assignment performed during the orthogonalisation
targets the freshly allocated `eigfuncs_ortho` / `norm` arrays, never
the input. -/
theorem gs_ortho_same_shape_no_mutation (N : Numerics)
    (eigfuncs : (ℕ × ℕ × ℕ × ℕ) → ℕ → ℚ) (shape : ℕ × ℕ × ℕ × ℕ × ℕ)
    (xgrid : ℕ → ℚ) :
    (gs_ortho N eigfuncs shape xgrid).1.1 = shape ∧
    (gs_ortho N eigfuncs shape xgrid).2.eigfuncs = eigfuncs := by
  constructor
  · rfl
  · exact gs_ortho_loops_eigfuncs N xgrid _ _ _ _ _ _

/-- C7: the integrated conductivities are invariant under recomputation.
The `sig_tot` / `sig_cc` values do not depend on the incoming cache
state (every `all_orbs` access rebuilds the list instead of reading
`self._all_orbs`), so repeated accesses return the same value; and
neither the in-place removals of `cond_orbs` nor the one in
`check_sum_rule` change what a later `all_orbs` access returns. -/
theorem sig_recompute_invariant (N : Numerics) (kg : KuboGreenwood)
    (s t : KGCaches) (l n : ℕ) (m : ℤ) :
    ((sig_tot_access N kg s).1 = (sig_tot_access N kg t).1) ∧
    ((sig_cc_access N kg s).1 = (sig_cc_access N kg t).1) ∧
    ((sig_tot_access N kg ((sig_tot_access N kg s).2)).1 =
      (sig_tot_access N kg s).1) ∧
    ((sig_cc_access N kg ((sig_cc_access N kg s).2)).1 =
      (sig_cc_access N kg s).1) ∧
    ((all_orbs_access kg ((cond_orbs_access kg s).2)).1 =
      (all_orbs_access kg s).1) ∧
    ((all_orbs_access kg ((check_sum_rule_access N kg l n m s).2)).1 =
      (all_orbs_access kg s).1) :=
  ⟨rfl, rfl, rfl, rfl, rfl, rfl⟩
